import Mathlib

/-!
Shallow embedding of the algo-trading-bot repository.

Embedded components:
* the signal scorer of `trading_strategy.py` (`TradingStrategy.generate_signal`
  together with the indicator columns it reads);
* the backtest simulator of `backtest.py` (`Backtester.run_backtest`, its
  per-bar loop body, the forced end-of-window closure, and
  `Backtester.calculate_statistics`);
* the order-placement front end of `alpaca_trader.py` (`AlpacaTrader.place_order`).

Numeric bar data and scores are modelled as rationals; a pandas `NaN`
(a missing indicator value from an unfilled rolling window, or a `0/0`)
is modelled as `none` in an `Option`, mirroring the key pandas facts that
every comparison against `NaN` is false and that a rolling window shorter
than its period yields `NaN`.  The Bollinger band values involve a square
root and are therefore modelled over the reals.
-/

namespace AlgoBot

/-- Trading signal returned by `TradingStrategy.generate_signal`. -/
inductive Signal where
  | BUY
  | SELL
  | HOLD
deriving DecidableEq

/-- One indicator row as read by the scorer: the derived columns of the
dataframe at a single bar.  `none` models a pandas `NaN`.  `close` is raw
bar data and always present; `volume_signal` is an integer column that is
initialised to `0` and hence never `NaN`. -/
structure IndicatorRow (K : Type) where
  close : K
  rsi : Option K
  macd : Option K
  macd_signal : Option K
  bb_upper : Option K
  bb_lower : Option K
  ema_fast : Option K
  ema_slow : Option K
  volume_signal : Int

/-- Comparison `a < b` with pandas `NaN` semantics: any comparison that
touches a missing value is false. -/
def optLt {K : Type} [LinearOrder K] : Option K → Option K → Bool
  | some a, some b => decide (a < b)
  | _, _ => false

/-- Comparison `a ≤ b` with pandas `NaN` semantics. -/
def optLe {K : Type} [LinearOrder K] : Option K → Option K → Bool
  | some a, some b => decide (a ≤ b)
  | _, _ => false

/-- Comparison `a > b` with pandas `NaN` semantics. -/
def optGt {K : Type} [LinearOrder K] (a b : Option K) : Bool := optLt b a

/-- Comparison `a ≥ b` with pandas `NaN` semantics. -/
def optGe {K : Type} [LinearOrder K] (a b : Option K) : Bool := optLe b a

/-- RSI oversold threshold `30` of the scorer (`latest['rsi'] < 30`). -/
def oversold {K : Type} [LinearOrderedField K] : Option K := some 30

/-- RSI overbought threshold `70` of the scorer (`latest['rsi'] > 70`). -/
def overbought {K : Type} [LinearOrderedField K] : Option K := some 70

/-- One if/elif block of the scoring system: add `wb` to the buy score when
`cb` holds, otherwise add `ws` to the sell score when `cs` holds, otherwise
leave the scores alone. -/
def bump {K : Type} [LinearOrderedField K] (p : K × K) (cb cs : Prop)
    [Decidable cb] [Decidable cs] (wb ws : K) : K × K :=
  if cb then (p.1 + wb, p.2) else if cs then (p.1, p.2 + ws) else p

/-- Sequential accumulation of `buy_score` and `sell_score` in
`TradingStrategy.generate_signal` (lines 34-71): six if/elif blocks, each
adding its weight to at most one of the two scores. -/
def scores {K : Type} [LinearOrderedField K] (latest prev : IndicatorRow K) :
    K × K :=
  let s0 : K × K := (0, 0)
  -- RSI signal (weight 2): oversold / overbought
  let s1 := bump s0 (optLt latest.rsi oversold) (optGt latest.rsi overbought) 2 2
  -- MACD signal (weight 2): bullish / bearish crossover
  let s2 := bump s1
    (optGt latest.macd latest.macd_signal && optLe prev.macd prev.macd_signal)
    (optLt latest.macd latest.macd_signal && optGe prev.macd prev.macd_signal) 2 2
  -- Bollinger bands signal (weight 1.5): price below lower / above upper band
  let s3 := bump s2 (optLt (some latest.close) latest.bb_lower)
    (optGt (some latest.close) latest.bb_upper) (3/2) (3/2)
  -- EMA crossover signal (weight 2): golden / death cross
  let s4 := bump s3
    (optGt latest.ema_fast latest.ema_slow && optLe prev.ema_fast prev.ema_slow)
    (optLt latest.ema_fast latest.ema_slow && optGe prev.ema_fast prev.ema_slow) 2 2
  -- Volume confirmation (weight 1.5)
  let s5 := bump s4 (latest.volume_signal = 1) (latest.volume_signal = -1) (3/2) (3/2)
  -- Trend confirmation (weight 1): close above / below slow EMA
  bump s5 (optGt (some latest.close) latest.ema_slow)
    (optLt (some latest.close) latest.ema_slow) 1 1

/-- Decision logic of `TradingStrategy.generate_signal` (lines 73-81):
threshold 5 and strict majority, otherwise HOLD. -/
def generateSignal {K : Type} [LinearOrderedField K]
    (latest prev : IndicatorRow K) : Signal :=
  let s := scores latest prev
  if s.1 ≥ 5 ∧ s.1 > s.2 then Signal.BUY
  else if s.2 ≥ 5 ∧ s.2 > s.1 then Signal.SELL
  else Signal.HOLD

/-- Buy score written as the plain sum of the fixed weights, following the
words of the specification (one weight per triggered buy condition). -/
def specBuyScore {K : Type} [LinearOrderedField K]
    (latest prev : IndicatorRow K) : K :=
  (if optLt latest.rsi oversold then (2 : K) else 0)
  + (if optGt latest.macd latest.macd_signal &&
       optLe prev.macd prev.macd_signal then (2 : K) else 0)
  + (if optLt (some latest.close) latest.bb_lower then (3/2 : K) else 0)
  + (if optGt latest.ema_fast latest.ema_slow &&
       optLe prev.ema_fast prev.ema_slow then (2 : K) else 0)
  + (if latest.volume_signal = 1 then (3/2 : K) else 0)
  + (if optGt (some latest.close) latest.ema_slow then (1 : K) else 0)

/-- Sell score written as the plain sum of the fixed weights, following the
words of the specification (one weight per triggered sell condition). -/
def specSellScore {K : Type} [LinearOrderedField K]
    (latest prev : IndicatorRow K) : K :=
  (if optGt latest.rsi overbought then (2 : K) else 0)
  + (if optLt latest.macd latest.macd_signal &&
       optGe prev.macd prev.macd_signal then (2 : K) else 0)
  + (if optGt (some latest.close) latest.bb_upper then (3/2 : K) else 0)
  + (if optLt latest.ema_fast latest.ema_slow &&
       optGe prev.ema_fast prev.ema_slow then (2 : K) else 0)
  + (if latest.volume_signal = -1 then (3/2 : K) else 0)
  + (if optLt (some latest.close) latest.ema_slow then (1 : K) else 0)

/-- Well-formedness of a row's Bollinger bands: whenever both bands are
present, the lower band does not exceed the upper band.  Every row produced
by the indicator pipeline satisfies this (`bbOrdered_rowAt` below). -/
def bbOrdered {K : Type} [LinearOrder K] (r : IndicatorRow K) : Bool :=
  match r.bb_lower, r.bb_upper with
  | some lo, some hi => decide (lo ≤ hi)
  | _, _ => true

/-- Latest row of a sample input on which the scorer fires BUY although the
RSI value is missing: MACD bullish crossover, EMA golden cross and close
above the slow EMA give a buy score of 2 + 2 + 1 = 5. -/
def rowBuyLatest : IndicatorRow ℚ :=
  { close := 10, rsi := none, macd := some 1, macd_signal := some 0,
    bb_upper := some 1000, bb_lower := some 0, ema_fast := some 2,
    ema_slow := some 1, volume_signal := 0 }

/-- Previous row of the sample input of `rowBuyLatest`. -/
def rowBuyPrev : IndicatorRow ℚ :=
  { close := 10, rsi := none, macd := some 0, macd_signal := some 0,
    bb_upper := some 1000, bb_lower := some 0, ema_fast := some 1,
    ema_slow := some 1, volume_signal := 0 }

/-- Predicate describing the situation of claim C3 pushed to its extreme:
every indicator value the scorer reads is missing.  When the rolling
`volume_ma` window is unfilled, the masks in `calculate_volume_signal`
compare against `NaN` and both fail, so the `volume_signal` column keeps
its initialised value `0`. -/
def allIndicatorsMissing {K : Type} (r : IndicatorRow K) : Prop :=
  r.rsi = none ∧ r.macd = none ∧ r.macd_signal = none ∧ r.bb_upper = none ∧
  r.bb_lower = none ∧ r.ema_fast = none ∧ r.ema_slow = none ∧
  r.volume_signal = 0

/-- Sample row with every indicator value the scorer reads missing. -/
def allMissingRow : IndicatorRow ℚ :=
  { close := 10, rsi := none, macd := none, macd_signal := none,
    bb_upper := none, bb_lower := none, ema_fast := none,
    ema_slow := none, volume_signal := 0 }

/-- One OHLCV bar reduced to the fields the backtest core reads. -/
structure Bar where
  close : ℚ
  volume : ℚ
deriving DecidableEq, Inhabited

/-- Risk parameters of `config.py` consumed by the simulator
(`POSITION_SIZE_PCT`, `STOP_LOSS_PCT`, `TAKE_PROFIT_PCT`). -/
structure SimConfig where
  positionSizePct : ℚ
  stopLossPct : ℚ
  takeProfitPct : ℚ
deriving DecidableEq

/-- Default configuration values of `config.py`: 10% position size, 2%
stop loss, 4% take profit. -/
def defaultConfig : SimConfig :=
  { positionSizePct := 1/10, stopLossPct := 2, takeProfitPct := 4 }

/-- Python `int()` applied to a rational: truncation toward zero. -/
def pyInt (q : ℚ) : Int := if 0 ≤ q then ⌊q⌋ else ⌈q⌉

/-- Open position of the simulator (`position` dict in `run_backtest`).
Timestamps are abstracted as bar indices. -/
structure Position where
  entry_price : ℚ
  shares : Int
  entry_date : Nat
deriving DecidableEq

/-- One closed round trip (the dict appended to `trades`). -/
structure Trade where
  entry_date : Nat
  exit_date : Nat
  entry_price : ℚ
  exit_price : ℚ
  shares : Int
  pnl : ℚ
  pnl_pct : ℚ
  reason : String
deriving DecidableEq

/-- Mutable loop state of `Backtester.run_backtest`: capital, the at most
one open position, the trade list, and the equity curve. -/
structure SimState where
  capital : ℚ
  position : Option Position
  trades : List Trade
  equity : List (Nat × ℚ)
deriving DecidableEq

/-- Loop body of `Backtester.run_backtest` (lines 57-112) for one simulated
bar: trade execution driven by the bar's signal and price, followed by the
equity snapshot of that bar. -/
def simStep (cfg : SimConfig) (signal : Signal) (price : ℚ) (date : Nat)
    (st : SimState) : SimState :=
  let st1 :=
    if signal = Signal.BUY ∧ st.position = none then
      let shares := pyInt (st.capital * cfg.positionSizePct / price)
      if shares > 0 then
        { st with
          capital := st.capital - (shares : ℚ) * price,
          position := some { entry_price := price, shares := shares,
                             entry_date := date } }
      else st
    else
      match st.position with
      | some pos =>
        let pnl_pct := (price - pos.entry_price) / pos.entry_price * 100
        let exitReason : Option String :=
          if signal = Signal.SELL then some "SELL signal"
          else if pnl_pct ≤ -cfg.stopLossPct then some "Stop-loss"
          else if pnl_pct ≥ cfg.takeProfitPct then some "Take-profit"
          else none
        match exitReason with
        | some reason =>
          { st with
            capital := st.capital + (pos.shares : ℚ) * price,
            position := none,
            trades := st.trades ++
              [{ entry_date := pos.entry_date, exit_date := date,
                 entry_price := pos.entry_price, exit_price := price,
                 shares := pos.shares,
                 pnl := (price - pos.entry_price) * (pos.shares : ℚ),
                 pnl_pct := pnl_pct, reason := reason }] }
        | none => st
      | none => st
  { st1 with
    equity := st1.equity ++
      [(date, st1.capital +
        (match st1.position with
         | some p => (p.shares : ℚ) * price
         | none => 0))] }

/-- Forced closure of a still-open position after the final bar
(`run_backtest` lines 114-130), at the final close price with exit reason
"End of backtest".  The local `position` variable is not reset by the
source, so the field is kept as is. -/
def forceClose (bars : List Bar) (st : SimState) : SimState :=
  match st.position with
  | some pos =>
    let final_price := (bars.getD (bars.length - 1) default).close
    { st with
      capital := st.capital + (pos.shares : ℚ) * final_price,
      trades := st.trades ++
        [{ entry_date := pos.entry_date, exit_date := bars.length - 1,
           entry_price := pos.entry_price, exit_price := final_price,
           shares := pos.shares,
           pnl := (final_price - pos.entry_price) * (pos.shares : ℚ),
           pnl_pct := (final_price - pos.entry_price) / pos.entry_price * 100,
           reason := "End of backtest" }] }
  | none => st

/-- Exponential smoothing recursion of pandas `ewm(span, adjust=False)`
after the seed: `e_t = α x_t + (1 - α) e_(t-1)`. -/
def emaAux (a e : ℚ) : List ℚ → List ℚ
  | [] => []
  | x :: xs =>
    let e2 := a * x + (1 - a) * e
    e2 :: emaAux a e2 xs

/-- The pandas `ewm(span=s, adjust=False).mean()` column: seeded by the
first raw value, smoothing factor `2/(s+1)`. -/
def ewmList (span : Nat) : List ℚ → List ℚ
  | [] => []
  | x :: xs => x :: emaAux (2 / (span + 1)) x xs

/-- The `macd` column of `calculate_macd`: EMA(close,12) - EMA(close,26). -/
def macdList (closes : List ℚ) : List ℚ :=
  List.zipWith (fun a b => a - b) (ewmList 12 closes) (ewmList 26 closes)

/-- The `macd_signal` column of `calculate_macd`: EMA(macd, 9). -/
def macdSignalList (closes : List ℚ) : List ℚ :=
  ewmList 9 (macdList closes)

/-- The positive part of the close delta at index `j`
(`delta.where(delta > 0, 0)` in `calculate_rsi`); the undefined delta of
the first row compares false against 0 and is replaced by 0. -/
def gainAt (closes : List ℚ) (j : Nat) : ℚ :=
  if j = 0 then 0 else max (closes.getD j 0 - closes.getD (j - 1) 0) 0

/-- The negative part of the close delta at index `j`
(`-delta.where(delta < 0, 0)` in `calculate_rsi`). -/
def lossAt (closes : List ℚ) (j : Nat) : ℚ :=
  if j = 0 then 0 else max (closes.getD (j - 1) 0 - closes.getD j 0) 0

/-- Rolling 14-bar mean of the gains at index `i` (defined once the rolling
window is full, i.e. `13 ≤ i`). -/
def avgGain (closes : List ℚ) (i : Nat) : ℚ :=
  (((List.range 14).map fun k => gainAt closes (i - k)).sum) / 14

/-- Rolling 14-bar mean of the losses at index `i`. -/
def avgLoss (closes : List ℚ) (i : Nat) : ℚ :=
  (((List.range 14).map fun k => lossAt closes (i - k)).sum) / 14

/-- The `rsi` column of `calculate_rsi` at index `i`:
`100 - 100/(1 + gain/loss)` where the quotient follows pandas semantics,
`positive/0 = +inf` (so the RSI saturates at 100) and `0/0 = NaN` (so the
RSI is missing even though the window is full). -/
def rsiAt (closes : List ℚ) (i : Nat) : Option ℚ :=
  if 13 ≤ i ∧ i < closes.length then
    let g := avgGain closes i
    let l := avgLoss closes i
    if l = 0 then (if g = 0 then none else some 100)
    else some (100 - 100 / (1 + g / l))
  else none

/-- Sum of the trailing `p`-bar window ending at index `i`. -/
def windowSum (xs : List ℚ) (p i : Nat) : ℚ :=
  ((List.range p).map fun k => xs.getD (i - k) 0).sum

/-- Rolling mean (pandas `rolling(window=p).mean()`): defined once `p`
observations are available. -/
def rollingMeanAt (xs : List ℚ) (p i : Nat) : Option ℚ :=
  if p - 1 ≤ i ∧ i < xs.length then some (windowSum xs p i / p) else none

/-- Rolling sample variance with divisor `p - 1` (the square of pandas
`rolling(window=p).std()`, whose default is `ddof=1`). -/
def sampleVarAt (xs : List ℚ) (p i : Nat) : Option ℚ :=
  match rollingMeanAt xs p i with
  | some m =>
    some ((((List.range p).map fun k => (xs.getD (i - k) 0 - m) ^ 2).sum) / (p - 1))
  | none => none

/-- The `bb_middle` column of `calculate_bollinger_bands`: 20-bar SMA. -/
def bbMiddleAt (closes : List ℚ) (i : Nat) : Option ℚ :=
  rollingMeanAt closes 20 i

/-- The `bb_std` value of `calculate_bollinger_bands`: the rolling sample
standard deviation, i.e. the square root of `sampleVarAt`. -/
noncomputable def bbStdAt (closes : List ℚ) (i : Nat) : Option ℝ :=
  (sampleVarAt closes 20 i).map fun v => Real.sqrt (v : ℝ)

/-- The `bb_upper` column: `bb_middle + bb_std * 2`. -/
noncomputable def bbUpperAt (closes : List ℚ) (i : Nat) : Option ℝ :=
  match bbMiddleAt closes i, bbStdAt closes i with
  | some m, some s => some ((m : ℝ) + s * 2)
  | _, _ => none

/-- The `bb_lower` column: `bb_middle - bb_std * 2`. -/
noncomputable def bbLowerAt (closes : List ℚ) (i : Nat) : Option ℝ :=
  match bbMiddleAt closes i, bbStdAt closes i with
  | some m, some s => some ((m : ℝ) - s * 2)
  | _, _ => none

/-- The `volume_ma` column of `calculate_volume_signal`: 20-bar SMA of
volume. -/
def volumeMaAt (volumes : List ℚ) (i : Nat) : Option ℚ :=
  rollingMeanAt volumes 20 i

/-- The `volume_signal` column: initialised to 0, set to 1 on high volume
with rising close and to -1 on high volume with falling close; comparisons
against a missing `volume_ma` or the missing previous close of row 0 are
false. -/
def volumeSignalAt (closes volumes : List ℚ) (i : Nat) : Int :=
  match volumeMaAt volumes i with
  | none => 0
  | some ma =>
    if volumes.getD i 0 > ma * (3/2) ∧ 0 < i ∧
        closes.getD i 0 > closes.getD (i - 1) 0 then 1
    else if volumes.getD i 0 > ma * (3/2) ∧ 0 < i ∧
        closes.getD i 0 < closes.getD (i - 1) 0 then -1
    else 0

/-- The indicator row of the pipeline at index `i` of a bar window: the
columns produced by `calculate_rsi`, `calculate_macd`,
`calculate_bollinger_bands`, `calculate_ema` and `calculate_volume_signal`.
The Bollinger bands live in `ℝ` because of the square root; the remaining
rational columns are cast. -/
noncomputable def rowAt (bars : List Bar) (i : Nat) : IndicatorRow ℝ :=
  let closes := bars.map Bar.close
  let volumes := bars.map Bar.volume
  { close := ((closes.getD i 0 : ℚ) : ℝ),
    rsi := (rsiAt closes i).map fun q => (q : ℝ),
    macd := some (((macdList closes).getD i 0 : ℚ) : ℝ),
    macd_signal := some (((macdSignalList closes).getD i 0 : ℚ) : ℝ),
    bb_upper := bbUpperAt closes i,
    bb_lower := bbLowerAt closes i,
    ema_fast := some (((ewmList 9 closes).getD i 0 : ℚ) : ℝ),
    ema_slow := some (((ewmList 21 closes).getD i 0 : ℚ) : ℝ),
    volume_signal := volumeSignalAt closes volumes i }

/-- `TradingStrategy.generate_signal` applied to a bar window: indicator
pipeline, then the scorer on the last two rows.  A window with fewer than
two rows makes `df.iloc[-2]` (or `df.iloc[-1]`) raise, which the
surrounding `except` turns into HOLD. -/
noncomputable def stratSignal (window : List Bar) : Signal :=
  if window.length < 2 then Signal.HOLD
  else generateSignal (rowAt window (window.length - 1))
    (rowAt window (window.length - 2))

/-- The pandas `tail(n)`: the last `n` elements of a list. -/
def lastN (n : Nat) (l : List Bar) : List Bar := l.drop (l.length - n)

/-- One iteration of the simulation loop at bar index `i`: the signal is
computed on the trailing 100-bar window of the first `i+1` bars
(`current_bars.tail(100)`) and the price is the close of bar `i`. -/
noncomputable def stepAt (cfg : SimConfig) (bars : List Bar) (st : SimState)
    (i : Nat) : SimState :=
  simStep cfg (stratSignal (lastN 100 (bars.take (i + 1))))
    (bars.getD i default).close i st

/-- The simulation loop of `run_backtest` (lines 48-112): fold of the loop
body over the bar indices `100, ..., len-1`. -/
noncomputable def backtestState (cfg : SimConfig) (bars : List Bar) (cap : ℚ) :
    SimState :=
  (List.range' 100 (bars.length - 100)).foldl (stepAt cfg bars)
    { capital := cap, position := none, trades := [], equity := [] }

/-- Mean of a list of rationals (`Series.mean`). -/
def listMean (l : List ℚ) : ℚ := l.sum / l.length

/-- Cumulative maxima after the head (`Series.cummax`). -/
def peaksAux (p : ℚ) : List ℚ → List ℚ
  | [] => []
  | x :: xs =>
    let p2 := max p x
    p2 :: peaksAux p2 xs

/-- The `peak` column: running maximum of the equity values. -/
def peaks : List ℚ → List ℚ
  | [] => []
  | x :: xs => x :: peaksAux x xs

/-- Minimum of a list of rationals (`Series.min`); 0 for the empty list,
which the simulator never produces alongside a nonempty trade list. -/
def listMin : List ℚ → ℚ
  | [] => 0
  | x :: xs => xs.foldl min x

/-- Performance report assembled by `Backtester.calculate_statistics`. -/
structure BacktestStats where
  initial_capital : ℚ
  final_capital : ℚ
  total_return : ℚ
  total_trades : Nat
  winning_trades : Nat
  losing_trades : Nat
  win_rate : ℚ
  avg_win : ℚ
  avg_loss : ℚ
  profit_factor : ℚ
  max_drawdown : ℚ
  trades : List Trade
  equity_curve : List (Nat × ℚ)
deriving DecidableEq

/-- `Backtester.calculate_statistics` (lines 172-209): `None` when the
trade list is empty, otherwise the aggregated report. -/
def calculateStatistics (trades : List Trade) (equity : List (Nat × ℚ))
    (initial final : ℚ) : Option BacktestStats :=
  if trades = [] then none
  else
    let pnls := trades.map Trade.pnl
    let total_trades := trades.length
    let wins := pnls.filter fun p => decide (0 < p)
    let losses := pnls.filter fun p => decide (p < 0)
    let winning := wins.length
    let losing := losses.length
    let eq := equity.map Prod.snd
    let dd := List.zipWith (fun e p => (e - p) / p * 100) eq (peaks eq)
    let avg_win := if winning > 0 then listMean wins else 0
    let avg_loss := if losing > 0 then listMean losses else 0
    some { initial_capital := initial, final_capital := final,
           total_return := (final - initial) / initial * 100,
           total_trades := total_trades, winning_trades := winning,
           losing_trades := losing,
           win_rate := if total_trades > 0 then (winning : ℚ) / total_trades * 100 else 0,
           avg_win := avg_win, avg_loss := avg_loss,
           profit_factor := if avg_loss ≠ 0 then |avg_win / avg_loss| else 0,
           max_drawdown := listMin dd,
           trades := trades, equity_curve := equity }

/-- `Backtester.run_backtest` (lines 29-136): `None` on fewer than 100 bars
before any state is created, otherwise the fold of the loop body, the
forced closure, and the statistics (which are themselves `None` for a run
without a single trade). -/
noncomputable def runBacktest (cfg : SimConfig) (bars : List Bar) (cap : ℚ) :
    Option BacktestStats :=
  if bars.length < 100 then none
  else
    let fin := forceClose bars (backtestState cfg bars cap)
    calculateStatistics fin.trades fin.equity cap fin.capital

/-- Order side enumeration of the Alpaca client. -/
inductive OrderSide where
  | buy
  | sell
deriving DecidableEq

/-- An order request as handed to the order sink `submit_order`. -/
structure OrderRequest where
  symbol : String
  qty : ℚ
  side : OrderSide
  isLimit : Bool
  limit_price : Option ℚ
deriving DecidableEq

/-- Python truthiness of the optional `limit_price` argument: `None`, `0`
and `0.0` are falsy. -/
def truthy (lp : Option ℚ) : Bool :=
  match lp with
  | some p => decide (p ≠ 0)
  | none => false

/-- `AlpacaTrader.place_order` (lines 98-128) up to the order sink: the
returned value is the request object passed to `submit_order`, or `none`
when the call is rejected before reaching the sink.  The side string is
lower-cased and compared against "buy"; anything else becomes SELL. -/
def placeOrder (symbol : String) (qty : ℚ) (side : String)
    (order_type : String) (limit_price : Option ℚ) : Option OrderRequest :=
  let order_side := if side.toLower = "buy" then OrderSide.buy else OrderSide.sell
  if order_type = "market" then
    some { symbol := symbol, qty := qty, side := order_side,
           isLimit := false, limit_price := none }
  else if order_type = "limit" ∧ truthy limit_price then
    some { symbol := symbol, qty := qty, side := order_side,
           isLimit := true, limit_price := limit_price }
  else none

/-- Capital locked in the open position: shares times entry price (0 when
flat).  The conserved quantity of the cash ledger is
`capital + posCost position - pnlSum trades`. -/
def posCost : Option Position → ℚ
  | some p => (p.shares : ℚ) * p.entry_price
  | none => 0

/-- Sum of the realised profit and loss over a trade list. -/
def pnlSum (trades : List Trade) : ℚ := (trades.map Trade.pnl).sum

/-- Rolling population variance with divisor `p`, following the
specification's words ("rolling population standard deviation"); the code
instead divides by `p - 1` (`sampleVarAt`). -/
def specPopVarAt (xs : List ℚ) (p i : Nat) : Option ℚ :=
  match rollingMeanAt xs p i with
  | some m =>
    some ((((List.range p).map fun k => (xs.getD (i - k) 0 - m) ^ 2).sum) / p)
  | none => none

/-- Upper Bollinger band as described by the specification's words:
middle plus two population standard deviations (the lower band is the
mirror image). -/
noncomputable def specBbUpperAt (closes : List ℚ) (i : Nat) : Option ℝ :=
  match bbMiddleAt closes i,
      (specPopVarAt closes 20 i).map (fun v => Real.sqrt (v : ℝ)) with
  | some m, some s => some ((m : ℝ) + s * 2)
  | _, _ => none

lemma optLt_asymm {K : Type} [LinearOrder K] {a b : Option K}
    (h1 : optLt a b = true) (h2 : optLt b a = true) : False := by
  cases a <;> cases b <;> simp [optLt] at h1 h2
  exact absurd (h1.trans h2) (lt_irrefl _)

/-- One accumulation block of `scores` rewritten as an independent pair of
additions, valid because the buy and the sell condition of a block never
hold together. -/
lemma bump_eq {K : Type} [LinearOrderedField K] (p : K × K) (cb cs : Prop)
    [Decidable cb] [Decidable cs] (wb ws : K) (h : ¬(cb ∧ cs)) :
    bump p cb cs wb ws
      = (p.1 + (if cb then wb else 0), p.2 + (if cs then ws else 0)) := by
  unfold bump
  split_ifs with h1 h2 <;> simp_all

lemma rsi_not_both {K : Type} [LinearOrderedField K] (r : Option K) :
    ¬(optLt r oversold = true ∧ optGt r overbought = true) := by
  rintro ⟨h1, h2⟩
  rw [optGt] at h2
  cases r with
  | none => simp [optLt, oversold] at h1
  | some x =>
    simp only [optLt, oversold, overbought, decide_eq_true_eq] at h1 h2
    linarith

lemma cross_not_both {K : Type} [LinearOrder K] (a b : Option K)
    (c d : Bool) :
    ¬((optGt a b && c) = true ∧ (optLt a b && d) = true) := by
  rintro ⟨h1, h2⟩
  rw [Bool.and_eq_true] at h1 h2
  rw [optGt] at h1
  exact optLt_asymm h2.1 h1.1

lemma bb_not_both {K : Type} [LinearOrder K] (r : IndicatorRow K)
    (hbb : bbOrdered r = true) :
    ¬(optLt (some r.close) r.bb_lower = true ∧
      optGt (some r.close) r.bb_upper = true) := by
  rintro ⟨h1, h2⟩
  rw [optGt] at h2
  cases hlo : r.bb_lower with
  | none => rw [hlo] at h1; simp [optLt] at h1
  | some lo =>
    cases hhi : r.bb_upper with
    | none => rw [hhi] at h2; simp [optLt] at h2
    | some hi =>
      rw [hlo] at h1
      rw [hhi] at h2
      simp only [optLt, decide_eq_true_eq] at h1 h2
      rw [bbOrdered, hlo, hhi] at hbb
      simp only [decide_eq_true_eq] at hbb
      exact absurd ((h2.trans h1).trans_le hbb) (lt_irrefl _)

lemma vol_not_both (v : Int) : ¬(v = 1 ∧ v = -1) := by
  rintro ⟨h1, h2⟩; omega

lemma trend_not_both {K : Type} [LinearOrder K] (c : K) (e : Option K) :
    ¬(optGt (some c) e = true ∧ optLt (some c) e = true) := by
  rintro ⟨h1, h2⟩
  rw [optGt] at h1
  exact optLt_asymm h2 h1

/-- The sequentially accumulated scores of `generate_signal` coincide with
the plain weight sums described by the specification, provided the row's
Bollinger bands are ordered. -/
lemma scores_eq_spec {K : Type} [LinearOrderedField K]
    (latest prev : IndicatorRow K) (hbb : bbOrdered latest = true) :
    scores latest prev = (specBuyScore latest prev, specSellScore latest prev) := by
  simp only [scores]
  rw [bump_eq _ _ _ _ _ (rsi_not_both latest.rsi)]
  rw [bump_eq _ _ _ _ _ (cross_not_both latest.macd latest.macd_signal _ _)]
  rw [bump_eq _ _ _ _ _ (bb_not_both latest hbb)]
  rw [bump_eq _ _ _ _ _ (cross_not_both latest.ema_fast latest.ema_slow _ _)]
  rw [bump_eq _ _ _ _ _ (vol_not_both latest.volume_signal)]
  rw [bump_eq _ _ _ _ _ (trend_not_both latest.close latest.ema_slow)]
  unfold specBuyScore specSellScore
  refine Prod.ext ?_ ?_ <;> simp

/-- Claim C1: the scorer returns BUY exactly when the buy score, the plain
sum of the fixed weights 2 (RSI), 2 (MACD crossover), 1.5 (Bollinger), 2
(EMA crossover), 1.5 (volume) and 1 (trend), reaches 5 and strictly exceeds
the sell score; SELL symmetrically; HOLD otherwise, and in particular a tie
of equal scores yields HOLD.  The hypothesis `bbOrdered` records that the
row's Bollinger bands are ordered, which holds for every row the indicator
pipeline produces (`bbOrdered_rowAt` below). -/
theorem C1_scorer_decision (latest prev : IndicatorRow ℚ)
    (hbb : bbOrdered latest = true) :
    (generateSignal latest prev = Signal.BUY ↔
      specBuyScore latest prev ≥ 5 ∧
      specBuyScore latest prev > specSellScore latest prev)
  ∧ (generateSignal latest prev = Signal.SELL ↔
      specSellScore latest prev ≥ 5 ∧
      specSellScore latest prev > specBuyScore latest prev)
  ∧ (generateSignal latest prev = Signal.HOLD ↔
      ¬(specBuyScore latest prev ≥ 5 ∧
        specBuyScore latest prev > specSellScore latest prev) ∧
      ¬(specSellScore latest prev ≥ 5 ∧
        specSellScore latest prev > specBuyScore latest prev))
  ∧ (specBuyScore latest prev = specSellScore latest prev →
      generateSignal latest prev = Signal.HOLD) := by
  have hgen : generateSignal latest prev =
      (if specBuyScore latest prev ≥ 5 ∧
          specBuyScore latest prev > specSellScore latest prev then Signal.BUY
       else if specSellScore latest prev ≥ 5 ∧
          specSellScore latest prev > specBuyScore latest prev then Signal.SELL
       else Signal.HOLD) := by
    unfold generateSignal
    rw [scores_eq_spec latest prev hbb]
  rw [hgen]
  by_cases h1 : specBuyScore latest prev ≥ 5 ∧
      specBuyScore latest prev > specSellScore latest prev
  · rw [if_pos h1]
    refine ⟨by simp [h1], ?_, ?_, ?_⟩
    · exact ⟨fun h => Signal.noConfusion h,
        fun h2 => absurd (h1.2.trans h2.2) (lt_irrefl _)⟩
    · exact ⟨fun h => Signal.noConfusion h, fun h2 => (h2.1 h1).elim⟩
    · exact fun he => absurd (he ▸ h1.2) (lt_irrefl _)
  · rw [if_neg h1]
    by_cases h2 : specSellScore latest prev ≥ 5 ∧
        specSellScore latest prev > specBuyScore latest prev
    · rw [if_pos h2]
      refine ⟨?_, by simp [h2], ?_, ?_⟩
      · exact ⟨fun h => Signal.noConfusion h,
          fun hb => absurd (h2.2.trans hb.2) (lt_irrefl _)⟩
      · exact ⟨fun h => Signal.noConfusion h, fun hc => (hc.2 h2).elim⟩
      · exact fun he => absurd (he ▸ h2.2) (lt_irrefl _)
    · rw [if_neg h2]
      exact ⟨⟨fun h => Signal.noConfusion h, fun hb => (h1 hb).elim⟩,
        ⟨fun h => Signal.noConfusion h, fun hs => (h2 hs).elim⟩,
        ⟨fun _ => ⟨h1, h2⟩, fun _ => rfl⟩,
        fun _ => rfl⟩

/-- Witness for C1 at a concrete pair of rows. -/
theorem C1_scorer_decision_witness :
    (generateSignal rowBuyLatest rowBuyPrev = Signal.BUY ↔
      specBuyScore rowBuyLatest rowBuyPrev ≥ 5 ∧
      specBuyScore rowBuyLatest rowBuyPrev > specSellScore rowBuyLatest rowBuyPrev)
  ∧ (generateSignal rowBuyLatest rowBuyPrev = Signal.SELL ↔
      specSellScore rowBuyLatest rowBuyPrev ≥ 5 ∧
      specSellScore rowBuyLatest rowBuyPrev > specBuyScore rowBuyLatest rowBuyPrev)
  ∧ (generateSignal rowBuyLatest rowBuyPrev = Signal.HOLD ↔
      ¬(specBuyScore rowBuyLatest rowBuyPrev ≥ 5 ∧
        specBuyScore rowBuyLatest rowBuyPrev > specSellScore rowBuyLatest rowBuyPrev) ∧
      ¬(specSellScore rowBuyLatest rowBuyPrev ≥ 5 ∧
        specSellScore rowBuyLatest rowBuyPrev > specBuyScore rowBuyLatest rowBuyPrev))
  ∧ (specBuyScore rowBuyLatest rowBuyPrev = specSellScore rowBuyLatest rowBuyPrev →
      generateSignal rowBuyLatest rowBuyPrev = Signal.HOLD) :=
  C1_scorer_decision rowBuyLatest rowBuyPrev (by with_unfolding_all rfl)

/-- Claim C3 counterexample: an input whose RSI value is missing (NaN) does
not make the scorer return HOLD; the defined remaining indicators (MACD
bullish crossover, EMA golden cross, close above slow EMA) reach the BUY
threshold and the scorer returns BUY. -/
theorem C3_counterexample :
    rowBuyLatest.rsi = none ∧
    generateSignal rowBuyLatest rowBuyPrev = Signal.BUY ∧
    generateSignal rowBuyLatest rowBuyPrev ≠ Signal.HOLD := by
  refine ⟨rfl, by with_unfolding_all rfl, ?_⟩
  intro h
  rw [show generateSignal rowBuyLatest rowBuyPrev = Signal.BUY from by
    with_unfolding_all rfl] at h
  exact Signal.noConfusion h

/-- Claim C3 amended: a missing indicator value merely makes every
comparison that reads it false, so the indicator contributes no score; the
scorer is not forced to HOLD by a single missing value (see the
counterexample), but when every indicator value it reads is missing both
scores stay 0 and the scorer returns HOLD. -/
theorem C3_missing_indicators (latest prev : IndicatorRow ℚ)
    (h : allIndicatorsMissing latest) :
    generateSignal latest prev = Signal.HOLD := by
  obtain ⟨h1, h2, h3, h4, h5, h6, h7, h8⟩ := h
  simp only [generateSignal, scores, bump, optLt, optGt, optLe, optGe,
    oversold, overbought, h1, h2, h3, h4, h5, h6, h7, h8]
  norm_num

/-- Witness for the amended C3 at a concrete all-missing row. -/
theorem C3_missing_indicators_witness :
    generateSignal allMissingRow rowBuyPrev = Signal.HOLD :=
  C3_missing_indicators allMissingRow rowBuyPrev
    ⟨rfl, rfl, rfl, rfl, rfl, rfl, rfl, rfl⟩

/-- Claim C2: at most one position is ever live.  A BUY signal while a
position is open opens no second position and alters none of the open
position's fields: the position either stays exactly as it was or is
removed by a stop-loss/take-profit exit; a SELL (or any non-BUY) signal
while flat leaves capital, position and trade list untouched (only the
equity snapshot of the bar is appended); and every closure appends exactly
one trade, while a step that keeps the position open appends none. -/
theorem C2_single_position (cfg : SimConfig) (sig : Signal) (price : ℚ)
    (date : Nat) (st : SimState) :
    (∀ p, st.position = some p → sig = Signal.BUY →
      ((simStep cfg sig price date st).position = some p ∧
        (simStep cfg sig price date st).trades = st.trades) ∨
      ((simStep cfg sig price date st).position = none ∧
        ∃ t, (simStep cfg sig price date st).trades = st.trades ++ [t]))
  ∧ (st.position = none → sig ≠ Signal.BUY →
      (simStep cfg sig price date st).position = none ∧
      (simStep cfg sig price date st).capital = st.capital ∧
      (simStep cfg sig price date st).trades = st.trades)
  ∧ (∀ p, st.position = some p →
      ((simStep cfg sig price date st).position = none →
        ∃ t, (simStep cfg sig price date st).trades = st.trades ++ [t]) ∧
      ((simStep cfg sig price date st).position ≠ none →
        (simStep cfg sig price date st).position = some p ∧
        (simStep cfg sig price date st).trades = st.trades)) := by
  refine ⟨?_, ?_, ?_⟩
  · intro p hp hsig
    have hguard : ¬(sig = Signal.BUY ∧ st.position = none) := by
      rintro ⟨-, h⟩
      rw [hp] at h
      exact Option.noConfusion h
    unfold simStep
    rw [if_neg hguard, hp]
    by_cases h1 : sig = Signal.SELL
    · exact Signal.noConfusion (hsig.symm.trans h1)
    · simp only [h1, if_false]
      by_cases h2 : (price - p.entry_price) / p.entry_price * 100 ≤ -cfg.stopLossPct
      · right
        simp [h2]
      · simp only [h2, if_false]
        by_cases h3 : (price - p.entry_price) / p.entry_price * 100 ≥ cfg.takeProfitPct
        · right
          simp [h3]
        · left
          simp [h3, hp]
  · intro hp hsig
    have hguard : ¬(sig = Signal.BUY ∧ st.position = none) := by
      rintro ⟨h, -⟩
      exact hsig h
    unfold simStep
    rw [if_neg hguard, hp]
    simp [hp]
  · intro p hp
    have hguard : ¬(sig = Signal.BUY ∧ st.position = none) := by
      rintro ⟨-, h⟩
      rw [hp] at h
      exact Option.noConfusion h
    unfold simStep
    rw [if_neg hguard, hp]
    by_cases h1 : sig = Signal.SELL
    · simp [h1]
    · simp only [h1, if_false]
      by_cases h2 : (price - p.entry_price) / p.entry_price * 100 ≤ -cfg.stopLossPct
      · simp [h2]
      · simp only [h2, if_false]
        by_cases h3 : (price - p.entry_price) / p.entry_price * 100 ≥ cfg.takeProfitPct
        · simp [h3]
        · simp [h3, hp]

/-- Witness for C2: a BUY over an open position at entry price (no exit
condition holds) leaves the ledger untouched; a SELL while flat is a no-op;
closure accounting at the same concrete state. -/
theorem C2_single_position_witness :
    ((((simStep defaultConfig Signal.BUY 100 1
          (SimState.mk 900 (some (Position.mk 100 1 0)) [] [])).position =
            some (Position.mk 100 1 0) ∧
        (simStep defaultConfig Signal.BUY 100 1
          (SimState.mk 900 (some (Position.mk 100 1 0)) [] [])).trades = []) ∨
      ((simStep defaultConfig Signal.BUY 100 1
          (SimState.mk 900 (some (Position.mk 100 1 0)) [] [])).position = none ∧
        ∃ t, (simStep defaultConfig Signal.BUY 100 1
          (SimState.mk 900 (some (Position.mk 100 1 0)) [] [])).trades = [] ++ [t])))
  ∧ ((simStep defaultConfig Signal.SELL 100 1
        (SimState.mk 1000 none [] [])).position = none ∧
      (simStep defaultConfig Signal.SELL 100 1
        (SimState.mk 1000 none [] [])).capital = 1000 ∧
      (simStep defaultConfig Signal.SELL 100 1
        (SimState.mk 1000 none [] [])).trades = []) :=
  ⟨(C2_single_position defaultConfig Signal.BUY 100 1
      (SimState.mk 900 (some (Position.mk 100 1 0)) [] [])).1
      (Position.mk 100 1 0) rfl rfl,
   (C2_single_position defaultConfig Signal.SELL 100 1
      (SimState.mk 1000 none [] [])).2.1 rfl
      (fun h => Signal.noConfusion h)⟩

/-- Claim C4: while a position is open the exit conditions are evaluated in
the fixed order SELL signal, then stop-loss, then take-profit; the step
closes the position exactly when one of the three holds, and the recorded
exit reason is determined by the first condition that holds, independently
of which later conditions also hold. -/
theorem C4_exit_order (cfg : SimConfig) (sig : Signal) (price : ℚ)
    (date : Nat) (st : SimState) (p : Position)
    (hp : st.position = some p) :
    ((simStep cfg sig price date st).position = none ↔
      (sig = Signal.SELL ∨
        (price - p.entry_price) / p.entry_price * 100 ≤ -cfg.stopLossPct ∨
        (price - p.entry_price) / p.entry_price * 100 ≥ cfg.takeProfitPct))
  ∧ (sig = Signal.SELL →
      (simStep cfg sig price date st).trades = st.trades ++
        [{ entry_date := p.entry_date, exit_date := date,
           entry_price := p.entry_price, exit_price := price,
           shares := p.shares,
           pnl := (price - p.entry_price) * (p.shares : ℚ),
           pnl_pct := (price - p.entry_price) / p.entry_price * 100,
           reason := "SELL signal" }])
  ∧ (sig ≠ Signal.SELL →
      (price - p.entry_price) / p.entry_price * 100 ≤ -cfg.stopLossPct →
      (simStep cfg sig price date st).trades = st.trades ++
        [{ entry_date := p.entry_date, exit_date := date,
           entry_price := p.entry_price, exit_price := price,
           shares := p.shares,
           pnl := (price - p.entry_price) * (p.shares : ℚ),
           pnl_pct := (price - p.entry_price) / p.entry_price * 100,
           reason := "Stop-loss" }])
  ∧ (sig ≠ Signal.SELL →
      ¬((price - p.entry_price) / p.entry_price * 100 ≤ -cfg.stopLossPct) →
      (price - p.entry_price) / p.entry_price * 100 ≥ cfg.takeProfitPct →
      (simStep cfg sig price date st).trades = st.trades ++
        [{ entry_date := p.entry_date, exit_date := date,
           entry_price := p.entry_price, exit_price := price,
           shares := p.shares,
           pnl := (price - p.entry_price) * (p.shares : ℚ),
           pnl_pct := (price - p.entry_price) / p.entry_price * 100,
           reason := "Take-profit" }]) := by
  have hguard : ¬(sig = Signal.BUY ∧ st.position = none) := by
    rintro ⟨-, h⟩
    rw [hp] at h
    exact Option.noConfusion h
  refine ⟨?_, ?_, ?_, ?_⟩
  · unfold simStep
    rw [if_neg hguard, hp]
    by_cases h1 : sig = Signal.SELL
    · simp [h1]
    · simp only [h1, if_false]
      by_cases h2 : (price - p.entry_price) / p.entry_price * 100 ≤ -cfg.stopLossPct
      · simp [h1, h2]
      · simp only [h2, if_false]
        by_cases h3 : (price - p.entry_price) / p.entry_price * 100 ≥ cfg.takeProfitPct
        · simp [h1, h2, h3]
        · simp [h1, h2, h3, hp]
  · intro h1
    unfold simStep
    rw [if_neg hguard, hp]
    simp [h1]
  · intro h1 h2
    unfold simStep
    rw [if_neg hguard, hp]
    simp [h1, h2]
  · intro h1 h2 h3
    unfold simStep
    rw [if_neg hguard, hp]
    simp [h1, h2, h3]

/-- Witness for C4 at concrete states: at price 97 both the SELL signal and
the stop-loss condition hold and the recorded reason is "SELL signal"; the
same bar with a HOLD signal records "Stop-loss"; price 105 with HOLD
records "Take-profit". -/
theorem C4_exit_order_witness :
    ((simStep defaultConfig Signal.SELL 97 1
        (SimState.mk 800 (some (Position.mk 100 2 0)) [] [])).trades =
      [] ++
        [{ entry_date := 0, exit_date := 1, entry_price := 100,
           exit_price := 97, shares := 2,
           pnl := ((97 : ℚ) - 100) * ((2 : Int) : ℚ),
           pnl_pct := ((97 : ℚ) - 100) / 100 * 100,
           reason := "SELL signal" }])
  ∧ ((simStep defaultConfig Signal.HOLD 97 1
        (SimState.mk 800 (some (Position.mk 100 2 0)) [] [])).trades =
      [] ++
        [{ entry_date := 0, exit_date := 1, entry_price := 100,
           exit_price := 97, shares := 2,
           pnl := ((97 : ℚ) - 100) * ((2 : Int) : ℚ),
           pnl_pct := ((97 : ℚ) - 100) / 100 * 100,
           reason := "Stop-loss" }])
  ∧ ((simStep defaultConfig Signal.HOLD 105 1
        (SimState.mk 800 (some (Position.mk 100 2 0)) [] [])).trades =
      [] ++
        [{ entry_date := 0, exit_date := 1, entry_price := 100,
           exit_price := 105, shares := 2,
           pnl := ((105 : ℚ) - 100) * ((2 : Int) : ℚ),
           pnl_pct := ((105 : ℚ) - 100) / 100 * 100,
           reason := "Take-profit" }]) :=
  ⟨(C4_exit_order defaultConfig Signal.SELL 97 1
      (SimState.mk 800 (some (Position.mk 100 2 0)) [] [])
      (Position.mk 100 2 0) rfl).2.1 rfl,
   (C4_exit_order defaultConfig Signal.HOLD 97 1
      (SimState.mk 800 (some (Position.mk 100 2 0)) [] [])
      (Position.mk 100 2 0) rfl).2.2.1
      (fun h => Signal.noConfusion h) (by norm_num [defaultConfig]),
   (C4_exit_order defaultConfig Signal.HOLD 105 1
      (SimState.mk 800 (some (Position.mk 100 2 0)) [] [])
      (Position.mk 100 2 0) rfl).2.2.2
      (fun h => Signal.noConfusion h) (by norm_num [defaultConfig])
      (by norm_num [defaultConfig])⟩

/-- Every simulation step appends exactly one equity snapshot. -/
lemma simStep_equity_length (cfg : SimConfig) (sig : Signal) (price : ℚ)
    (date : Nat) (st : SimState) :
    (simStep cfg sig price date st).equity.length = st.equity.length + 1 := by
  unfold simStep
  by_cases h1 : sig = Signal.BUY ∧ st.position = none
  · rw [if_pos h1]
    by_cases h2 : pyInt (st.capital * cfg.positionSizePct / price) > 0 <;> simp [h2]
  · rw [if_neg h1]
    cases hpos : st.position with
    | none => simp
    | some p =>
      by_cases hS : sig = Signal.SELL
      · simp [hS]
      · simp only [hS, if_false]
        by_cases h2 : (price - p.entry_price) / p.entry_price * 100 ≤ -cfg.stopLossPct
        · simp [h2]
        · simp only [h2, if_false]
          by_cases h3 : (price - p.entry_price) / p.entry_price * 100 ≥ cfg.takeProfitPct
          · simp [h3]
          · simp [h3]

lemma pnlSum_append (l : List Trade) (t : Trade) :
    pnlSum (l ++ [t]) = pnlSum l + t.pnl := by
  simp [pnlSum]

/-- Cash-ledger conservation through one simulation step: opening debits
exactly the position cost, closing credits it plus the recorded pnl. -/
lemma simStep_conserve (cfg : SimConfig) (sig : Signal) (price : ℚ)
    (date : Nat) (st : SimState) :
    (simStep cfg sig price date st).capital
      + posCost (simStep cfg sig price date st).position
      - pnlSum (simStep cfg sig price date st).trades
    = st.capital + posCost st.position - pnlSum st.trades := by
  unfold simStep
  by_cases h1 : sig = Signal.BUY ∧ st.position = none
  · rw [if_pos h1]
    by_cases h2 : pyInt (st.capital * cfg.positionSizePct / price) > 0
    · rw [if_pos h2, h1.2]
      simp [posCost]
      try ring
    · rw [if_neg h2]
      try rfl
  · rw [if_neg h1]
    cases hpos : st.position with
    | none => simp [hpos, posCost]
    | some p =>
      by_cases hS : sig = Signal.SELL
      · simp [hS, posCost, pnlSum_append]
        ring
      · simp only [hS, if_false]
        by_cases h2 : (price - p.entry_price) / p.entry_price * 100 ≤ -cfg.stopLossPct
        · simp [h2, posCost, pnlSum_append]
          ring
        · simp only [h2, if_false]
          by_cases h3 : (price - p.entry_price) / p.entry_price * 100 ≥ cfg.takeProfitPct
          · simp [h3, posCost, pnlSum_append]
            ring
          · simp [h3, hpos]

/-- Cash-ledger conservation through the whole simulation fold. -/
lemma foldl_conserve (cfg : SimConfig) (bars : List Bar) :
    ∀ (l : List Nat) (st : SimState),
      (l.foldl (stepAt cfg bars) st).capital
        + posCost (l.foldl (stepAt cfg bars) st).position
        - pnlSum (l.foldl (stepAt cfg bars) st).trades
      = st.capital + posCost st.position - pnlSum st.trades := by
  intro l
  induction l with
  | nil => intro st; rfl
  | cons x xs ih =>
    intro st
    rw [List.foldl_cons, ih]
    exact simStep_conserve cfg _ _ x st

/-- Equity snapshot count through the whole simulation fold. -/
lemma foldl_equity_length (cfg : SimConfig) (bars : List Bar) :
    ∀ (l : List Nat) (st : SimState),
      ((l.foldl (stepAt cfg bars) st).equity).length
        = st.equity.length + l.length := by
  intro l
  induction l with
  | nil => intro st; simp
  | cons x xs ih =>
    intro st
    rw [List.foldl_cons, ih]
    rw [stepAt, simStep_equity_length]
    simp [List.length_cons]
    try omega

/-- Cash-ledger conservation through the forced end-of-window closure. -/
lemma forceClose_conserve (bars : List Bar) (st : SimState) :
    (forceClose bars st).capital - pnlSum (forceClose bars st).trades
      = st.capital + posCost st.position - pnlSum st.trades := by
  unfold forceClose
  cases hpos : st.position with
  | none => simp [posCost]
  | some p =>
    simp [posCost, pnlSum_append]
    ring

/-- Claim C5: a bar series of fewer than 100 bars makes the simulator
return no result and create no trades and no equity snapshots (the state
is never advanced past its initial value); with at least 100 bars the
simulation runs over exactly the bar indices `100, ..., len-1`, producing
one equity snapshot per simulated bar, and the result is the statistics of
the folded and force-closed state. -/
theorem C5_insufficient_data (cfg : SimConfig) (bars : List Bar) (cap : ℚ) :
    (bars.length < 100 →
      runBacktest cfg bars cap = none ∧
      backtestState cfg bars cap = SimState.mk cap none [] [])
  ∧ (100 ≤ bars.length →
      (backtestState cfg bars cap).equity.length = bars.length - 100 ∧
      runBacktest cfg bars cap =
        calculateStatistics
          (forceClose bars (backtestState cfg bars cap)).trades
          (forceClose bars (backtestState cfg bars cap)).equity
          cap
          (forceClose bars (backtestState cfg bars cap)).capital) := by
  constructor
  · intro h
    constructor
    · unfold runBacktest
      rw [if_pos h]
    · unfold backtestState
      have h0 : bars.length - 100 = 0 := by omega
      rw [h0]
      rfl
  · intro h
    constructor
    · unfold backtestState
      rw [foldl_equity_length]
      simp
    · unfold runBacktest
      rw [if_neg (by omega)]

/-- Witness for C5: a 50-bar series yields no result and the untouched
initial state; a 100-bar series yields an empty simulation range hence
zero snapshots. -/
theorem C5_insufficient_data_witness :
    (runBacktest defaultConfig (List.replicate 50 (Bar.mk 100 1000)) 10000 = none ∧
      backtestState defaultConfig (List.replicate 50 (Bar.mk 100 1000)) 10000 =
        SimState.mk 10000 none [] [])
  ∧ ((backtestState defaultConfig (List.replicate 100 (Bar.mk 100 1000)) 10000).equity.length =
        (List.replicate 100 (Bar.mk 100 1000)).length - 100 ∧
      runBacktest defaultConfig (List.replicate 100 (Bar.mk 100 1000)) 10000 =
        calculateStatistics
          (forceClose (List.replicate 100 (Bar.mk 100 1000))
            (backtestState defaultConfig (List.replicate 100 (Bar.mk 100 1000)) 10000)).trades
          (forceClose (List.replicate 100 (Bar.mk 100 1000))
            (backtestState defaultConfig (List.replicate 100 (Bar.mk 100 1000)) 10000)).equity
          10000
          (forceClose (List.replicate 100 (Bar.mk 100 1000))
            (backtestState defaultConfig (List.replicate 100 (Bar.mk 100 1000)) 10000)).capital) :=
  ⟨(C5_insufficient_data defaultConfig (List.replicate 50 (Bar.mk 100 1000)) 10000).1
      (by simp),
   (C5_insufficient_data defaultConfig (List.replicate 100 (Bar.mk 100 1000)) 10000).2
      (by simp)⟩

/-- Claim C10: cash is exactly conserved.  After the simulation fold and
the forced end-of-window closure, the final capital equals the initial
capital plus the summed pnl of all recorded trades; consequently every
returned result carries `final_capital = initial + Σ pnl(trades)`. -/
theorem C10_cash_conservation (cfg : SimConfig) (bars : List Bar) (cap : ℚ) :
    (forceClose bars (backtestState cfg bars cap)).capital
      = cap + pnlSum (forceClose bars (backtestState cfg bars cap)).trades
  ∧ (runBacktest cfg bars cap).elim True
      (fun res => res.final_capital = cap + pnlSum res.trades) := by
  have hfold := foldl_conserve cfg bars
    (List.range' 100 (bars.length - 100)) (SimState.mk cap none [] [])
  have hfc := forceClose_conserve bars (backtestState cfg bars cap)
  have hbs : (backtestState cfg bars cap).capital
      + posCost (backtestState cfg bars cap).position
      - pnlSum (backtestState cfg bars cap).trades = cap := by
    unfold backtestState
    rw [hfold]
    simp [posCost, pnlSum]
  have hmain : (forceClose bars (backtestState cfg bars cap)).capital
      = cap + pnlSum (forceClose bars (backtestState cfg bars cap)).trades := by
    have := hfc.trans hbs
    linarith
  refine ⟨hmain, ?_⟩
  cases h : runBacktest cfg bars cap with
  | none => trivial
  | some res =>
    simp only [Option.elim]
    simp only [runBacktest] at h
    by_cases hlen : bars.length < 100
    · rw [if_pos hlen] at h
      exact Option.noConfusion h
    · rw [if_neg hlen] at h
      simp only [calculateStatistics] at h
      by_cases htr : (forceClose bars (backtestState cfg bars cap)).trades = []
      · rw [if_pos htr] at h
        exact Option.noConfusion h
      · rw [if_neg htr] at h
        have hres := Option.some.inj h
        rw [← hres]
        simpa using hmain

lemma getD_replicate {α : Type} (n : Nat) (a d : α) (i : Nat) :
    (List.replicate n a).getD i d = if i < n then a else d := by
  rw [List.getD_eq_getElem?_getD, List.getElem?_replicate]
  split_ifs <;> simp

lemma emaAux_const (a c : ℚ) :
    ∀ k, emaAux a c (List.replicate k c) = List.replicate k c := by
  intro k
  induction k with
  | zero => rfl
  | succ k ih =>
    rw [List.replicate_succ]
    simp only [emaAux]
    have he : a * c + (1 - a) * c = c := by ring
    rw [he, ih, ← List.replicate_succ]

/-- An EMA of a constant series is that constant. -/
lemma ewmList_const (span : Nat) (c : ℚ) (m : Nat) :
    ewmList span (List.replicate m c) = List.replicate m c := by
  cases m with
  | zero => rfl
  | succ k =>
    rw [List.replicate_succ]
    simp only [ewmList]
    rw [emaAux_const, ← List.replicate_succ]

lemma macdList_const (c : ℚ) (m : Nat) :
    macdList (List.replicate m c) = List.replicate m 0 := by
  unfold macdList
  rw [ewmList_const, ewmList_const, List.zipWith_replicate]
  simp

lemma macdSignalList_const (c : ℚ) (m : Nat) :
    macdSignalList (List.replicate m c) = List.replicate m 0 := by
  unfold macdSignalList
  rw [macdList_const, ewmList_const]

lemma gainAt_const (c : ℚ) (m j : Nat) (h : j < m) :
    gainAt (List.replicate m c) j = 0 := by
  unfold gainAt
  split_ifs with h0
  · rfl
  · rw [getD_replicate, getD_replicate, if_pos h, if_pos (by omega)]
    simp

lemma lossAt_const (c : ℚ) (m j : Nat) (h : j < m) :
    lossAt (List.replicate m c) j = 0 := by
  unfold lossAt
  split_ifs with h0
  · rfl
  · rw [getD_replicate, getD_replicate, if_pos h, if_pos (by omega)]
    simp

lemma avgGain_const (c : ℚ) (m i : Nat) (h : i < m) :
    avgGain (List.replicate m c) i = 0 := by
  unfold avgGain
  rw [List.map_congr_left
    (fun k _ => gainAt_const c m (i - k) (by omega))]
  simp

lemma avgLoss_const (c : ℚ) (m i : Nat) (h : i < m) :
    avgLoss (List.replicate m c) i = 0 := by
  unfold avgLoss
  rw [List.map_congr_left
    (fun k _ => lossAt_const c m (i - k) (by omega))]
  simp

/-- On a flat close series the RSI is missing everywhere: the rolling gain
and loss averages are both 0 and `0/0` is `NaN`. -/
lemma rsiAt_const (c : ℚ) (m i : Nat) :
    rsiAt (List.replicate m c) i = none := by
  unfold rsiAt
  by_cases h : 13 ≤ i ∧ i < (List.replicate m c).length
  · rw [if_pos h]
    have hi : i < m := by simpa using h.2
    simp [avgGain_const c m i hi, avgLoss_const c m i hi]
  · rw [if_neg h]

lemma volumeSignalAt_const (c : ℚ) (vols : List ℚ) (m i : Nat)
    (him : i < m) :
    volumeSignalAt (List.replicate m c) vols i = 0 := by
  unfold volumeSignalAt
  cases hma : volumeMaAt vols i with
  | none => rfl
  | some ma =>
    rw [getD_replicate, getD_replicate, if_pos him,
      if_pos (show i - 1 < m by omega)]
    simp

lemma windowSum_const (c : ℚ) (m p i : Nat) (h : i < m) :
    windowSum (List.replicate m c) p i = p * c := by
  unfold windowSum
  rw [List.map_congr_left
    (fun k _ => by rw [getD_replicate, if_pos (show i - k < m by omega)])]
  simp [List.map_const', mul_comm]

lemma rollingMeanAt_const (c : ℚ) (m p i : Nat) (hp : p ≠ 0)
    (h1 : p - 1 ≤ i) (h2 : i < m) :
    rollingMeanAt (List.replicate m c) p i = some c := by
  unfold rollingMeanAt
  rw [if_pos ⟨h1, by simpa using h2⟩, windowSum_const c m p i h2]
  have hpq : (p : ℚ) ≠ 0 := Nat.cast_ne_zero.mpr hp
  congr 1
  exact mul_div_cancel_left₀ c hpq

/-- On a flat series the rolling sample variance is 0 wherever defined. -/
lemma sampleVarAt_const (c : ℚ) (m i : Nat) (h1 : 19 ≤ i) (h2 : i < m) :
    sampleVarAt (List.replicate m c) 20 i = some 0 := by
  unfold sampleVarAt
  simp only [rollingMeanAt_const c m 20 i (by norm_num) (by omega) h2]
  rw [List.map_congr_left (g := fun k => (0 : ℚ))
    (fun k _ => by
      rw [getD_replicate, if_pos (show i - k < m by omega)]
      ring)]
  simp

lemma rollingMeanAt_const_none (c : ℚ) (m p i : Nat)
    (h : ¬(p - 1 ≤ i ∧ i < m)) :
    rollingMeanAt (List.replicate m c) p i = none := by
  unfold rollingMeanAt
  rw [if_neg (by simpa using h)]

/-- On a flat series the lower Bollinger band is either missing or equal to
the close. -/
lemma bbLowerAt_const (c : ℚ) (m i : Nat) (him : i < m) :
    bbLowerAt (List.replicate m c) i = none ∨
    bbLowerAt (List.replicate m c) i = some ((c : ℚ) : ℝ) := by
  unfold bbLowerAt bbMiddleAt bbStdAt
  by_cases h : 19 ≤ i
  · right
    rw [rollingMeanAt_const c m 20 i (by norm_num) (by omega) him,
      sampleVarAt_const c m i h him]
    simp
  · left
    rw [rollingMeanAt_const_none c m 20 i (by omega)]

/-- On a flat series the upper Bollinger band is either missing or equal to
the close. -/
lemma bbUpperAt_const (c : ℚ) (m i : Nat) (him : i < m) :
    bbUpperAt (List.replicate m c) i = none ∨
    bbUpperAt (List.replicate m c) i = some ((c : ℚ) : ℝ) := by
  unfold bbUpperAt bbMiddleAt bbStdAt
  by_cases h : 19 ≤ i
  · right
    rw [rollingMeanAt_const c m 20 i (by norm_num) (by omega) him,
      sampleVarAt_const c m i h him]
    simp
  · left
    rw [rollingMeanAt_const_none c m 20 i (by omega)]

lemma optLt_self {K : Type} [LinearOrder K] (x : Option K) :
    optLt x x = false := by
  cases x <;> simp [optLt]

/-- A row whose RSI is missing, whose MACD equals its signal line, whose
fast EMA equals its slow EMA, whose close equals the slow EMA, whose
Bollinger bands are missing or equal to the close, and whose volume signal
is 0 triggers no scoring condition, so the scorer returns HOLD. -/
lemma generateSignal_hold_of_neutral {K : Type} [LinearOrderedField K]
    (latest prev : IndicatorRow K)
    (h1 : latest.rsi = none)
    (h2 : latest.macd = latest.macd_signal)
    (h4 : latest.ema_fast = latest.ema_slow)
    (h5 : latest.ema_slow = some latest.close)
    (h6 : latest.bb_lower = none ∨ latest.bb_lower = some latest.close)
    (h7 : latest.bb_upper = none ∨ latest.bb_upper = some latest.close)
    (h8 : latest.volume_signal = 0) :
    generateSignal latest prev = Signal.HOLD := by
  have hnl : ∀ x : Option K, optLt none x = false := by
    intro x; cases x <;> rfl
  have hnr : ∀ x : Option K, optLt x none = false := by
    intro x; cases x <;> rfl
  have hbb1 : optLt (some latest.close) latest.bb_lower = false := by
    rcases h6 with h | h <;> rw [h]
    · exact hnr _
    · exact optLt_self _
  have hbb2 : optLt latest.bb_upper (some latest.close) = false := by
    rcases h7 with h | h <;> rw [h]
    · exact hnl _
    · exact optLt_self _
  simp only [generateSignal, scores, bump, optGt, h1, h2, h4, h5, h8,
    hbb1, hbb2, hnl, hnr, optLt_self, Bool.false_and, Bool.and_false]
  norm_num

/-- The scorer applied to any window of identical bars returns HOLD. -/
lemma stratSignal_flat (m : Nat) (c v : ℚ) :
    stratSignal (List.replicate m (Bar.mk c v)) = Signal.HOLD := by
  unfold stratSignal
  by_cases h2 : (List.replicate m (Bar.mk c v)).length < 2
  · rw [if_pos h2]
  · rw [if_neg h2]
    have hm : 2 ≤ m := by simpa using Nat.not_lt.mp (by simpa using h2)
    have hmap : (List.replicate m (Bar.mk c v)).map Bar.close =
        List.replicate m c := by
      simp [List.map_replicate]
    have hmapv : (List.replicate m (Bar.mk c v)).map Bar.volume =
        List.replicate m v := by
      simp [List.map_replicate]
    have hlen : (List.replicate m (Bar.mk c v)).length = m := by simp
    rw [hlen]
    apply generateSignal_hold_of_neutral
    · simp only [rowAt, hmap]
      rw [rsiAt_const]
      rfl
    · simp only [rowAt, hmap]
      rw [macdList_const, macdSignalList_const]
    · simp only [rowAt, hmap]
      rw [ewmList_const, ewmList_const]
    · simp only [rowAt, hmap]
      rw [ewmList_const]
    · simp only [rowAt, hmap]
      have := bbLowerAt_const c m (m - 1) (by omega)
      rcases this with h | h <;> rw [h]
      · exact Or.inl rfl
      · right
        rw [getD_replicate, if_pos (by omega)]
    · simp only [rowAt, hmap]
      have := bbUpperAt_const c m (m - 1) (by omega)
      rcases this with h | h <;> rw [h]
      · exact Or.inl rfl
      · right
        rw [getD_replicate, if_pos (by omega)]
    · simp only [rowAt, hmap, hmapv]
      exact volumeSignalAt_const c (List.replicate m v) m (m - 1) (by omega)

/-- A non-BUY signal while flat leaves capital, position and trade list
untouched (only the equity snapshot is appended). -/
lemma simStep_noop (cfg : SimConfig) (sig : Signal) (price : ℚ) (date : Nat)
    (st : SimState) (hp : st.position = none) (hs : sig ≠ Signal.BUY) :
    (simStep cfg sig price date st).position = none ∧
    (simStep cfg sig price date st).capital = st.capital ∧
    (simStep cfg sig price date st).trades = st.trades := by
  unfold simStep
  rw [if_neg (by rintro ⟨h, -⟩; exact hs h), hp]
  simp [hp]

/-- One loop iteration over a flat bar series is a ledger no-op. -/
lemma stepAt_flat (cfg : SimConfig) (n : Nat) (c v : ℚ) (st : SimState)
    (i : Nat) (hp : st.position = none) :
    (stepAt cfg (List.replicate n (Bar.mk c v)) st i).position = none ∧
    (stepAt cfg (List.replicate n (Bar.mk c v)) st i).capital = st.capital ∧
    (stepAt cfg (List.replicate n (Bar.mk c v)) st i).trades = st.trades := by
  unfold stepAt
  have hwin : lastN 100 ((List.replicate n (Bar.mk c v)).take (i + 1)) =
      List.replicate (min (i + 1) n - (min (i + 1) n - 100)) (Bar.mk c v) := by
    unfold lastN
    rw [List.take_replicate, List.length_replicate, List.drop_replicate]
  rw [hwin, stratSignal_flat]
  exact simStep_noop cfg Signal.HOLD _ i st hp (fun h => Signal.noConfusion h)

/-- The whole simulation fold over a flat bar series is a ledger no-op. -/
lemma foldl_flat (cfg : SimConfig) (n : Nat) (c v : ℚ) :
    ∀ (l : List Nat) (st : SimState), st.position = none →
      (l.foldl (stepAt cfg (List.replicate n (Bar.mk c v))) st).position = none ∧
      (l.foldl (stepAt cfg (List.replicate n (Bar.mk c v))) st).capital = st.capital ∧
      (l.foldl (stepAt cfg (List.replicate n (Bar.mk c v))) st).trades = st.trades := by
  intro l
  induction l with
  | nil => exact fun st hp => ⟨hp, rfl, rfl⟩
  | cons x xs ih =>
    intro st hp
    rw [List.foldl_cons]
    have hstep := stepAt_flat cfg n c v st x hp
    obtain ⟨hpos, hcap, htr⟩ :=
      ih (stepAt cfg (List.replicate n (Bar.mk c v)) st x) hstep.1
    exact ⟨hpos, hcap.trans hstep.2.1, htr.trans hstep.2.2⟩

/-- Claim C8 counterexample: with an empty trade list the statistics
calculator does not produce a report with `win_rate = 0`; it returns
`None` (its first guard), so a flat run yields no Performance Report at
all. -/
theorem C8_counterexample :
    calculateStatistics [] [(0, 10000)] 10000 10000 = none := by
  unfold calculateStatistics
  rw [if_pos rfl]

/-- Claim C8 amended: on a bar series of identical bars every signal is
HOLD, so the run records no trade and the capital variable still equals the
initial capital; but `calculate_statistics` returns `None` on an empty
trade list (any equity curve, any capitals), so the run produces no
Performance Report and in particular no `win_rate` or `max_drawdown`
values. -/
theorem C8_flat_run_no_report (cfg : SimConfig) (n : Nat) (c v cap : ℚ)
    (equity : List (Nat × ℚ)) (initial final : ℚ) :
    calculateStatistics [] equity initial final = none
  ∧ (backtestState cfg (List.replicate n (Bar.mk c v)) cap).trades = []
  ∧ (backtestState cfg (List.replicate n (Bar.mk c v)) cap).capital = cap
  ∧ (backtestState cfg (List.replicate n (Bar.mk c v)) cap).position = none
  ∧ runBacktest cfg (List.replicate n (Bar.mk c v)) cap = none := by
  have hfold := foldl_flat cfg n c v
    (List.range' 100 ((List.replicate n (Bar.mk c v)).length - 100))
    (SimState.mk cap none [] []) rfl
  have hbs : (backtestState cfg (List.replicate n (Bar.mk c v)) cap).trades = [] ∧
      (backtestState cfg (List.replicate n (Bar.mk c v)) cap).capital = cap ∧
      (backtestState cfg (List.replicate n (Bar.mk c v)) cap).position = none := by
    unfold backtestState
    exact ⟨hfold.2.2, hfold.2.1, hfold.1⟩
  refine ⟨by unfold calculateStatistics; rw [if_pos rfl], hbs.1, hbs.2.1, hbs.2.2, ?_⟩
  unfold runBacktest
  by_cases hlen : (List.replicate n (Bar.mk c v)).length < 100
  · rw [if_pos hlen]
  · rw [if_neg hlen]
    have hfc : forceClose (List.replicate n (Bar.mk c v))
        (backtestState cfg (List.replicate n (Bar.mk c v)) cap) =
        backtestState cfg (List.replicate n (Bar.mk c v)) cap := by
      unfold forceClose
      rw [hbs.2.2]
    rw [hfc]
    unfold calculateStatistics
    rw [if_pos hbs.1]

lemma avgGain_nonneg (closes : List ℚ) (i : Nat) : 0 ≤ avgGain closes i := by
  unfold avgGain
  apply div_nonneg _ (by norm_num)
  apply List.sum_nonneg
  intro x hx
  simp only [List.mem_map] at hx
  obtain ⟨k, -, rfl⟩ := hx
  unfold gainAt
  split_ifs
  · exact le_refl 0
  · exact le_max_right _ _

lemma avgLoss_nonneg (closes : List ℚ) (i : Nat) : 0 ≤ avgLoss closes i := by
  unfold avgLoss
  apply div_nonneg _ (by norm_num)
  apply List.sum_nonneg
  intro x hx
  simp only [List.mem_map] at hx
  obtain ⟨k, -, rfl⟩ := hx
  unfold lossAt
  split_ifs
  · exact le_refl 0
  · exact le_max_right _ _

/-- Claim C6 counterexample: on 15 flat closes the 14-bar trailing window
at index 14 is full, yet the RSI is not defined (and in particular not
100): the rolling gain and loss averages are both 0 and pandas `0/0` is
`NaN`. -/
theorem C6_counterexample :
    (13 ≤ 14 ∧ 14 < (List.replicate 15 (100 : ℚ)).length) ∧
    avgLoss (List.replicate 15 (100 : ℚ)) 14 = 0 ∧
    rsiAt (List.replicate 15 (100 : ℚ)) 14 = none := by
  refine ⟨⟨by norm_num, by simp⟩, ?_, rsiAt_const 100 15 14⟩
  exact avgLoss_const 100 15 14 (by norm_num)

/-- Claim C6 amended: whenever the trailing RSI window is full and the
window is not entirely flat (the gain average or the loss average is
nonzero), the RSI is defined and lies in [0, 100], and a zero loss average
saturates it at exactly 100; a fully flat window (both averages zero)
leaves the RSI undefined instead of 100. -/
theorem C6_rsi_bounds (closes : List ℚ) (i : Nat)
    (hwin : 13 ≤ i ∧ i < closes.length)
    (hne : avgGain closes i ≠ 0 ∨ avgLoss closes i ≠ 0) :
    ∃ r, rsiAt closes i = some r ∧ 0 ≤ r ∧ r ≤ 100 ∧
      (avgLoss closes i = 0 → r = 100) := by
  have hg0 : 0 ≤ avgGain closes i := avgGain_nonneg closes i
  have hl0 : 0 ≤ avgLoss closes i := avgLoss_nonneg closes i
  simp only [rsiAt]
  rw [if_pos hwin]
  by_cases hl : avgLoss closes i = 0
  · have hg : avgGain closes i ≠ 0 := by
      rcases hne with h | h
      · exact h
      · exact absurd hl h
    rw [if_pos hl, if_neg hg]
    exact ⟨100, rfl, by norm_num, le_refl _, fun _ => rfl⟩
  · rw [if_neg hl]
    have hlpos : 0 < avgLoss closes i := lt_of_le_of_ne hl0 (Ne.symm hl)
    set q := avgGain closes i / avgLoss closes i with hq
    have hq0 : 0 ≤ q := div_nonneg hg0 hl0
    have h1q : (0 : ℚ) < 1 + q := by linarith
    have hdivpos : 0 < 100 / (1 + q) := by positivity
    have hdivle : 100 / (1 + q) ≤ 100 := by
      rw [div_le_iff h1q]
      nlinarith
    exact ⟨100 - 100 / (1 + q), rfl, by linarith, by linarith,
      fun h => absurd h hl⟩

/-- Witness for the amended C6: 14 flat closes followed by one rising
close give a zero loss average and a nonzero gain average, so the RSI is
defined, within bounds, and saturated at 100. -/
theorem C6_rsi_bounds_witness :
    ∃ r, rsiAt (List.replicate 14 (0 : ℚ) ++ [1]) 14 = some r ∧
      0 ≤ r ∧ r ≤ 100 ∧
      (avgLoss (List.replicate 14 (0 : ℚ) ++ [1]) 14 = 0 → r = 100) :=
  C6_rsi_bounds (List.replicate 14 (0 : ℚ) ++ [1]) 14
    (by constructor
        · norm_num
        · simp)
    (Or.inl (by
      rw [show avgGain (List.replicate 14 (0 : ℚ) ++ [1]) 14 = 1 / 14 from by
        with_unfolding_all rfl]
      norm_num))

/-- Claim C7 counterexample: on the 20-close window with nineteen 0s and
one 20 the code's upper band is `1 + 2·√20` (sample standard deviation,
divisor 19) while the claim's population-deviation band is `1 + 2·√19`
(divisor 20); the two differ. -/
theorem C7_counterexample :
    bbUpperAt (List.replicate 19 (0 : ℚ) ++ [20]) 19 =
      some ((1 : ℝ) + Real.sqrt 20 * 2) ∧
    specBbUpperAt (List.replicate 19 (0 : ℚ) ++ [20]) 19 =
      some ((1 : ℝ) + Real.sqrt 19 * 2) ∧
    bbUpperAt (List.replicate 19 (0 : ℚ) ++ [20]) 19 ≠
      specBbUpperAt (List.replicate 19 (0 : ℚ) ++ [20]) 19 := by
  have hm : rollingMeanAt (List.replicate 19 (0 : ℚ) ++ [20]) 20 19 =
      some 1 := by
    with_unfolding_all rfl
  have hv : sampleVarAt (List.replicate 19 (0 : ℚ) ++ [20]) 20 19 =
      some 20 := by
    with_unfolding_all rfl
  have hvp : specPopVarAt (List.replicate 19 (0 : ℚ) ++ [20]) 20 19 =
      some 19 := by
    with_unfolding_all rfl
  have h1 : bbUpperAt (List.replicate 19 (0 : ℚ) ++ [20]) 19 =
      some ((1 : ℝ) + Real.sqrt 20 * 2) := by
    unfold bbUpperAt bbMiddleAt bbStdAt
    rw [hm, hv]
    norm_num
  have h2 : specBbUpperAt (List.replicate 19 (0 : ℚ) ++ [20]) 19 =
      some ((1 : ℝ) + Real.sqrt 19 * 2) := by
    unfold specBbUpperAt bbMiddleAt
    rw [hm, hvp]
    norm_num
  refine ⟨h1, h2, ?_⟩
  rw [h1, h2]
  intro h
  have heq := Option.some.inj h
  have hs : Real.sqrt 20 = Real.sqrt 19 := by linarith
  have hlt : Real.sqrt 19 < Real.sqrt 20 :=
    Real.sqrt_lt_sqrt (by norm_num) (by norm_num)
  linarith

/-- Claim C7 amended: for every bar with a full 20-bar rolling window the
middle band is the simple moving average of close, and the upper/lower
bands are middle plus/minus two rolling *sample* standard deviations
(divisor 19, pandas default `ddof=1`), i.e. a nonnegative `s` with
`s² = sample variance`; the claim's population deviation (divisor 20) is
refuted by the counterexample. -/
theorem C7_bollinger_bands (closes : List ℚ) (i : Nat)
    (hwin : 19 ≤ i ∧ i < closes.length) :
    ∃ (v : ℚ) (s : ℝ),
      bbMiddleAt closes i = some (windowSum closes 20 i / 20) ∧
      sampleVarAt closes 20 i = some v ∧ 0 ≤ v ∧ 0 ≤ s ∧
      s ^ 2 = ((v : ℚ) : ℝ) ∧
      bbUpperAt closes i =
        some (((windowSum closes 20 i / 20 : ℚ) : ℝ) + s * 2) ∧
      bbLowerAt closes i =
        some (((windowSum closes 20 i / 20 : ℚ) : ℝ) - s * 2) := by
  have hm : rollingMeanAt closes 20 i = some (windowSum closes 20 i / 20) := by
    unfold rollingMeanAt
    rw [if_pos ⟨by omega, hwin.2⟩]
    norm_num
  have hv : sampleVarAt closes 20 i =
      some ((((List.range 20).map fun k =>
        (closes.getD (i - k) 0 - windowSum closes 20 i / 20) ^ 2).sum) /
          ((20 : ℚ) - 1)) := by
    simp only [sampleVarAt, hm]
    norm_num
  set v := (((List.range 20).map fun k =>
    (closes.getD (i - k) 0 - windowSum closes 20 i / 20) ^ 2).sum) /
      ((20 : ℚ) - 1) with hvdef
  have hv0 : 0 ≤ v := by
    apply div_nonneg _ (by norm_num)
    apply List.sum_nonneg
    intro x hx
    simp only [List.mem_map] at hx
    obtain ⟨k, -, rfl⟩ := hx
    positivity
  refine ⟨v, Real.sqrt ((v : ℚ) : ℝ), hm, hv, hv0, Real.sqrt_nonneg _, ?_, ?_, ?_⟩
  · rw [sq]
    exact Real.mul_self_sqrt (by exact_mod_cast hv0)
  · unfold bbUpperAt bbMiddleAt bbStdAt
    rw [hm, hv]
    simp
  · unfold bbLowerAt bbMiddleAt bbStdAt
    rw [hm, hv]
    simp

/-- Witness for the amended C7 at the concrete 20-close window of the
counterexample. -/
theorem C7_bollinger_bands_witness :
    ∃ (v : ℚ) (s : ℝ),
      bbMiddleAt (List.replicate 19 (0 : ℚ) ++ [20]) 19 =
        some (windowSum (List.replicate 19 (0 : ℚ) ++ [20]) 20 19 / 20) ∧
      sampleVarAt (List.replicate 19 (0 : ℚ) ++ [20]) 20 19 = some v ∧
      0 ≤ v ∧ 0 ≤ s ∧ s ^ 2 = ((v : ℚ) : ℝ) ∧
      bbUpperAt (List.replicate 19 (0 : ℚ) ++ [20]) 19 =
        some (((windowSum (List.replicate 19 (0 : ℚ) ++ [20]) 20 19 / 20 : ℚ) : ℝ) +
          s * 2) ∧
      bbLowerAt (List.replicate 19 (0 : ℚ) ++ [20]) 19 =
        some (((windowSum (List.replicate 19 (0 : ℚ) ++ [20]) 20 19 / 20 : ℚ) : ℝ) -
          s * 2) :=
  C7_bollinger_bands (List.replicate 19 (0 : ℚ) ++ [20]) 19
    ⟨by norm_num, by simp⟩

/-- Every row the indicator pipeline produces has ordered Bollinger bands:
both bands are `middle ± 2·std` with `std = √variance ≥ 0`.  This justifies
the well-formedness hypothesis of the C1 theorem. -/
lemma bbOrdered_rowAt (bars : List Bar) (i : Nat) :
    bbOrdered (rowAt bars i) = true := by
  simp only [rowAt, bbOrdered]
  cases hm : bbMiddleAt (bars.map Bar.close) i with
  | none =>
    unfold bbLowerAt bbUpperAt
    rw [hm]
  | some m =>
    cases hs : bbStdAt (bars.map Bar.close) i with
    | none =>
      unfold bbLowerAt bbUpperAt
      rw [hm, hs]
    | some s =>
      have hs0 : 0 ≤ s := by
        unfold bbStdAt at hs
        obtain ⟨v, -, rfl⟩ := Option.map_eq_some'.mp hs
        exact Real.sqrt_nonneg _
      unfold bbLowerAt bbUpperAt
      rw [hm, hs]
      simp only [decide_eq_true_eq]
      linarith

/-- Claim C9 counterexample: an unrecognized side string is not rejected:
`place_order` maps any side other than "buy" to `OrderSide.SELL` and the
market order reaches the order sink. -/
theorem C9_counterexample :
    placeOrder "AAPL" 1 "foo" "market" none =
      some { symbol := "AAPL", qty := 1, side := OrderSide.sell,
             isLimit := false, limit_price := none } ∧
    placeOrder "AAPL" 1 "foo" "market" none ≠ none := by
  constructor
  · with_unfolding_all rfl
  · intro h
    rw [show placeOrder "AAPL" 1 "foo" "market" none =
        some { symbol := "AAPL", qty := 1, side := OrderSide.sell,
               isLimit := false, limit_price := none } from by
      with_unfolding_all rfl] at h
    exact Option.noConfusion h

/-- Claim C9 amended: a limit order without a limit price is rejected
before reaching the order sink; a market order needs only qty and side and
is always submitted; but an unrecognized side is not rejected: the side
string is lower-cased and compared against "buy", and anything else
(including unrecognized values) is submitted as SELL.  Every limit request
that reaches the sink carries a truthy limit price. -/
theorem C9_place_order (symbol : String) (qty : ℚ) (side : String)
    (limit_price : Option ℚ) :
    placeOrder symbol qty side "limit" none = none
  ∧ placeOrder symbol qty side "market" limit_price =
      some { symbol := symbol, qty := qty,
             side := if side.toLower = "buy" then OrderSide.buy
               else OrderSide.sell,
             isLimit := false, limit_price := none }
  ∧ (side.toLower ≠ "buy" →
      placeOrder symbol qty side "market" limit_price =
        some { symbol := symbol, qty := qty, side := OrderSide.sell,
               isLimit := false, limit_price := none })
  ∧ (∀ (ot : String) (lp : Option ℚ) (req : OrderRequest),
      placeOrder symbol qty side ot lp = some req →
      req.isLimit = true → ∃ p, lp = some p ∧ p ≠ 0) := by
  refine ⟨?_, ?_, ?_, ?_⟩
  · unfold placeOrder
    rw [if_neg (by decide), if_neg (by simp [truthy])]
  · unfold placeOrder
    rw [if_pos rfl]
  · intro hside
    unfold placeOrder
    rw [if_pos rfl, if_neg hside]
  · intro ot lp req hreq hlim
    unfold placeOrder at hreq
    by_cases hmkt : ot = "market"
    · rw [if_pos hmkt] at hreq
      have := Option.some.inj hreq
      rw [← this] at hlim
      exact Bool.noConfusion hlim
    · rw [if_neg hmkt] at hreq
      by_cases hl : ot = "limit" ∧ truthy lp = true
      · rw [if_pos hl] at hreq
        cases hlp : lp with
        | none =>
          rw [hlp] at hl
          exact absurd hl.2 (by simp [truthy])
        | some p =>
          refine ⟨p, rfl, ?_⟩
          have ht := hl.2
          rw [hlp] at ht
          simpa [truthy] using ht
      · rw [if_neg hl] at hreq
        exact Option.noConfusion hreq

/-- Witness for the amended C9 at concrete arguments: the limit-no-price
rejection, the SELL coercion of side "foo", and the truthy price of a
submitted limit order. -/
theorem C9_place_order_witness :
    placeOrder "AAPL" 1 "foo" "limit" none = none
  ∧ placeOrder "AAPL" 1 "foo" "market" (some 5) =
      some { symbol := "AAPL", qty := 1, side := OrderSide.sell,
             isLimit := false, limit_price := none }
  ∧ (∃ p, (some (5 : ℚ)) = some p ∧ p ≠ 0) :=
  ⟨(C9_place_order "AAPL" 1 "foo" none).1,
   (C9_place_order "AAPL" 1 "foo" (some 5)).2.2.1
     (by rw [show "foo".toLower = "foo" from by with_unfolding_all rfl]
         decide),
   (C9_place_order "AAPL" 1 "foo" (some 5)).2.2.2 "limit" (some 5)
     { symbol := "AAPL", qty := 1, side := OrderSide.sell,
       isLimit := true, limit_price := some 5 }
     (by with_unfolding_all rfl) rfl⟩

end AlgoBot
